import Mathlib

/-!
Shallow embedding of `src/main.rs` of wsl2-bridge-rs: a stdin/stdout to
transport relay with two transport resolvers (GPG descriptor file + TCP,
Windows named pipe) and a bidirectional copy engine.

Bytes are modelled as `Nat` (the byte values 0..255; none of the verified
properties depend on the upper bound).  I/O is modelled by explicit
outcome lists: each element is the result the corresponding OS call
returned, and the embedded functions fold over them exactly as the Rust
control flow does, emitting a trace of the operations performed.
-/

namespace WslBridge

/-- Windows error code `ERROR_BROKEN_PIPE` (109). -/
def ERROR_BROKEN_PIPE : Nat := 109

/-- Windows error code `ERROR_PIPE_BUSY` (231). -/
def ERROR_PIPE_BUSY : Nat := 231

/-- Windows error code `ERROR_PIPE_NOT_CONNECTED` (233). -/
def ERROR_PIPE_NOT_CONNECTED : Nat := 233

/-! ## GPG-mode transport resolver (`gpg_conn`, src/main.rs lines 75-101) -/

/-- The error type of `main.rs` (`enum Error`): `IO`, `ParseInt`,
`InvalidNonce(usize)`. -/
inductive RError where
  | io : RError
  | parseInt : RError
  | invalidNonce (n : Nat) : RError
deriving DecidableEq, Repr

/-- `BufReader::read_line`: consume bytes up to and including the first
newline (0x0A); return the line (newline included, as Rust's `read_line`
appends the delimiter) and the remaining bytes.  At end of file the line
is whatever was left. -/
def read_line : List Nat → List Nat × List Nat
  | [] => ([], [])
  | b :: rest =>
    if b = 10 then ([10], rest)
    else
      let p := read_line rest
      (b :: p.1, p.2)

/-- ASCII decimal digit test, as used by Rust's integer parsing. -/
def isDigit (b : Nat) : Bool := 48 ≤ b && b ≤ 57

/-- Unicode/ASCII whitespace test restricted to the bytes `str::trim`
can meet in a port line: space, tab, newline, carriage return. -/
def isWS (b : Nat) : Bool := b = 32 || b = 9 || b = 10 || b = 13

/-- `str::trim`: drop whitespace from both ends. -/
def trimBytes (s : List Nat) : List Nat :=
  ((s.dropWhile isWS).reverse.dropWhile isWS).reverse

/-- Decimal value of a digit string (each byte assumed an ASCII digit). -/
def digitsVal (s : List Nat) : Nat :=
  s.foldl (fun a b => a * 10 + (b - 48)) 0

/-- `str::parse::<u16>`: an optional leading `+` (byte 43), then one or
more ASCII digits whose value fits in 16 bits; anything else is a parse
error. -/
def parseU16 (s : List Nat) : Option Nat :=
  let body := if s.head? = some 43 then s.tail else s
  if body.isEmpty then none
  else if body.all isDigit then
    if digitsVal body ≤ 65535 then some (digitsVal body) else none
  else none

/-- Result of GPG-mode resolution: the port passed to
`TcpStream::connect("localhost:<port>")` and the 16-byte buffer passed to
the first `stream.write` (the nonce handshake). -/
structure GpgResult where
  port : Nat
  nonce : List Nat
deriving DecidableEq, Repr

/-- `gpg_conn`'s descriptor handling (src/main.rs lines 85-101), on the
byte contents of the descriptor file: `read_line` into `port_buf`, a
single `read` into the 16-byte `nonce_buf` (so `n = min 16 |rest|` bytes
arrive and the unwritten tail of the zero-initialised buffer stays 0),
the `n > 16` guard returning `InvalidNonce`, then `port_buf.trim().parse`
— in exactly the source's order. -/
def gpg_conn (file : List Nat) : Except RError GpgResult :=
  let lp := read_line file
  let rest := lp.2
  let n := min 16 rest.length
  let nonce_buf := rest.take 16 ++ List.replicate (16 - n) 0
  if n > 16 then Except.error (RError.invalidNonce n)
  else match parseU16 (trimBytes lp.1) with
    | none => Except.error RError.parseInt
    | some port => Except.ok ⟨port, nonce_buf⟩

/-! ## Named-pipe resolver (`connect_pipe`, src/main.rs lines 118-129) -/

/-- One outcome of `ClientOptions::new().open(pipe_name)`: success, or an
error carrying `raw_os_error()` and whether `kind()` is `NotFound`. -/
inductive OpenOutcome where
  | ok : OpenOutcome
  | err (osCode : Option Nat) (isNotFound : Bool) : OpenOutcome
deriving DecidableEq, Repr

/-- Operations `connect_pipe` performs: an open attempt, or the 50 ms
`tokio::time::sleep`. -/
inductive ConnOp where
  | attempt : ConnOp
  | sleep50 : ConnOp
deriving DecidableEq, Repr

/-- Termination status of `connect_pipe`: connected, fatal open error
(carrying the error's fields), or still looping when the scripted
outcome list ran out. -/
inductive ConnResult where
  | connected : ConnResult
  | fatal (osCode : Option Nat) (isNotFound : Bool) : ConnResult
  | pending : ConnResult
deriving DecidableEq, Repr

/-- `connect_pipe` (src/main.rs lines 118-129) over a scripted list of
open outcomes: `Ok` breaks out with the client; an error whose
`raw_os_error` is `ERROR_PIPE_BUSY` falls through to the sleep and
retries; an error of kind `NotFound` retries only when `poll` is set;
any other error returns immediately. -/
def connect_pipe (poll : Bool) : List OpenOutcome → List ConnOp × ConnResult
  | [] => ([], ConnResult.pending)
  | OpenOutcome.ok :: _ => ([ConnOp.attempt], ConnResult.connected)
  | OpenOutcome.err c nf :: rest =>
    if c = some ERROR_PIPE_BUSY then
      let p := connect_pipe poll rest
      (ConnOp.attempt :: ConnOp.sleep50 :: p.1, p.2)
    else if nf && poll then
      let p := connect_pipe poll rest
      (ConnOp.attempt :: ConnOp.sleep50 :: p.1, p.2)
    else ([ConnOp.attempt], ConnResult.fatal c nf)

/-! ## Relay engine, stdin-to-transport direction
(`ssh_conn`'s `stdin_to_pipe` closure, src/main.rs lines 143-165) -/

/-- Operations the stdin-to-transport direction performs on the
transport: a data write (`np_writer.write_all(&buf[..n])`), the explicit
zero-byte message (`write_zero_byte_message`), or the half-close
(`np_writer.shutdown()`). -/
inductive PipeOp where
  | write (data : List Nat) : PipeOp
  | writeZeroMsg : PipeOp
  | shutdown : PipeOp
deriving DecidableEq, Repr

/-- The `stdin_to_pipe` closure over a scripted list of stdin read
results (each element the chunk one `stdin.read` returned; an empty
chunk is a 0-byte read, i.e. EOF).  Emits the transport operations in
order.  If the script runs out before an EOF read, the loop is still
running and the trace so far is returned. -/
def stdin_to_pipe (close_on_stdin_eof close_write : Bool) :
    List (List Nat) → List PipeOp
  | [] => []
  | c :: rest =>
    if c.length = 0 then
      if close_on_stdin_eof then []
      else if close_write then [PipeOp.writeZeroMsg, PipeOp.shutdown]
      else [PipeOp.shutdown]
    else PipeOp.write c :: stdin_to_pipe close_on_stdin_eof close_write rest

/-- Bytes arriving at the transport's write side: concatenation of the
data writes of a trace (the zero-byte message and shutdown carry no
payload bytes). -/
def writtenBytes : List PipeOp → List Nat
  | [] => []
  | PipeOp.write d :: rest => d ++ writtenBytes rest
  | _ :: rest => writtenBytes rest

/-- Models `tokio::io::copy(&mut stdin, &mut stream_out)` as used by
`gpg_conn` (src/main.rs line 107), per tokio's documented semantics:
read a chunk, write it through, loop; on a 0-byte read (EOF) flush and
return.  `copy` never calls `shutdown` on the writer, so the trace
contains data writes only. -/
def tokio_copy : List (List Nat) → List PipeOp
  | [] => []
  | c :: rest =>
    if c.length = 0 then []
    else PipeOp.write c :: tokio_copy rest

/-! ## Relay engine, transport-to-stdout direction
(`ssh_conn`'s `pipe_to_stdout` closure, src/main.rs lines 167-198) -/

/-- One outcome of `np_reader.read(&mut buf)`: `Ok` with the bytes read
(empty list = `Ok(0)`), or an error carrying
`raw_os_error().map(|x| x as u32)`. -/
inductive ReadOutcome where
  | ok (data : List Nat) : ReadOutcome
  | err (osCode : Option Nat) : ReadOutcome
deriving DecidableEq, Repr

/-- One outcome of `read_zero_probe(raw_handle)`: `Ok(())`, or an error
carrying `raw_os_error()`. -/
inductive ProbeOutcome where
  | ok : ProbeOutcome
  | err (osCode : Option Nat) : ProbeOutcome
deriving DecidableEq, Repr

/-- Operations the transport-to-stdout direction performs: a stdout
write (`stdout.write_all(&buf[..n])`) or the 50 ms sleep between
probes. -/
inductive OutOp where
  | stdoutWrite (data : List Nat) : OutOp
  | sleep50 : OutOp
deriving DecidableEq, Repr

/-- Termination status of the transport-to-stdout direction: returned
`Ok(())` (success), returned `Err(Error::IO(e))` with the error's os
code (fatal), or still looping when the scripted outcomes ran out. -/
inductive DirResult where
  | success : DirResult
  | fatal (osCode : Option Nat) : DirResult
  | pending : DirResult
deriving DecidableEq, Repr

/-- The disconnect-detection probe loop (src/main.rs lines 187-197) over
a scripted list of probe outcomes: a successful probe sleeps 50 ms and
probes again; a probe error whose `raw_os_error` is `ERROR_BROKEN_PIPE`
returns `Ok(())`; any other probe error returns `Err`. -/
def probe_loop : List ProbeOutcome → List OutOp × DirResult
  | [] => ([], DirResult.pending)
  | ProbeOutcome.ok :: rest =>
    let p := probe_loop rest
    (OutOp.sleep50 :: p.1, p.2)
  | ProbeOutcome.err c :: _ =>
    if c = some ERROR_BROKEN_PIPE then ([], DirResult.success)
    else ([], DirResult.fatal c)

/-- The `pipe_to_stdout` closure over scripted transport-read outcomes
and (for the disconnect-detection phase) probe outcomes.  `Ok(0)`:
return success if `close_on_eof`, else break into `probe_loop`.
`Ok(n)` with n > 0: write to stdout and continue.  `Err(e)` whose os
code is `ERROR_BROKEN_PIPE` or `ERROR_PIPE_NOT_CONNECTED`: return
success; any other read error is fatal. -/
def pipe_to_stdout (close_on_eof : Bool) :
    List ReadOutcome → List ProbeOutcome → List OutOp × DirResult
  | [], _ => ([], DirResult.pending)
  | ReadOutcome.ok d :: rest, probes =>
    if d.length = 0 then
      if close_on_eof then ([], DirResult.success)
      else probe_loop probes
    else
      let p := pipe_to_stdout close_on_eof rest probes
      (OutOp.stdoutWrite d :: p.1, p.2)
  | ReadOutcome.err c :: _, _ =>
    if c = some ERROR_BROKEN_PIPE || c = some ERROR_PIPE_NOT_CONNECTED then
      ([], DirResult.success)
    else ([], DirResult.fatal c)

/-! ## Helper lemmas -/

theorem isDigit_ne_newline {b : Nat} (h : isDigit b = true) : b ≠ 10 := by
  simp only [isDigit, Bool.and_eq_true, decide_eq_true_eq] at h
  omega

theorem isDigit_not_ws {b : Nat} (h : isDigit b = true) : isWS b = false := by
  simp only [isDigit, Bool.and_eq_true, decide_eq_true_eq] at h
  simp only [isWS, Bool.or_eq_false_iff, decide_eq_false_iff_not]
  omega

theorem isDigit_ne_plus {b : Nat} (h : isDigit b = true) : b ≠ 43 := by
  simp only [isDigit, Bool.and_eq_true, decide_eq_true_eq] at h
  omega

theorem read_line_append (digits rest : List Nat)
    (h : ∀ b ∈ digits, b ≠ 10) :
    read_line (digits ++ 10 :: rest) = (digits ++ [10], rest) := by
  induction digits with
  | nil => simp [read_line]
  | cons d ds ih =>
    have hd : d ≠ 10 := h d (List.mem_cons_self d ds)
    simp only [List.cons_append, read_line, if_neg hd, List.append_eq]
    rw [ih (fun b hb => h b (List.mem_cons_of_mem d hb))]

theorem dropWhile_of_head_neg {p : Nat → Bool} {a : Nat} {l : List Nat}
    (h : p a = false) : (a :: l).dropWhile p = a :: l := by
  simp [List.dropWhile_cons, h]

theorem trimBytes_digits_newline (digits : List Nat) (hne : digits ≠ [])
    (hdig : ∀ b ∈ digits, isDigit b = true) :
    trimBytes (digits ++ [10]) = digits := by
  cases digits with
  | nil => exact absurd rfl hne
  | cons d ds =>
    have hd : isWS d = false := isDigit_not_ws (hdig d (List.mem_cons_self d ds))
    unfold trimBytes
    rw [List.cons_append, dropWhile_of_head_neg hd]
    have hrev : (d :: (ds ++ [10])).reverse = 10 :: (d :: ds).reverse := by
      simp
    rw [hrev]
    have h10 : isWS 10 = true := by decide
    rw [List.dropWhile_cons, if_pos h10]
    cases hr : (d :: ds).reverse with
    | nil => simp at hr
    | cons a t =>
      have ha : a ∈ (d :: ds) := by
        have : a ∈ (d :: ds).reverse := by rw [hr]; exact List.mem_cons_self a t
        exact List.mem_reverse.mp this
      rw [dropWhile_of_head_neg (isDigit_not_ws (hdig a ha))]
      rw [← hr, List.reverse_reverse]

theorem parseU16_digits (digits : List Nat) (hne : digits ≠ [])
    (hdig : digits.all isDigit = true) (hval : digitsVal digits ≤ 65535) :
    parseU16 digits = some (digitsVal digits) := by
  cases digits with
  | nil => exact absurd rfl hne
  | cons d ds =>
    have hd : d ≠ 43 := by
      have := List.all_eq_true.mp hdig d (List.mem_cons_self d ds)
      exact isDigit_ne_plus this
    unfold parseU16
    have hhead : (d :: ds).head? = some d := rfl
    rw [hhead]
    have : ¬ (some d = some 43) := by
      intro hc
      exact hd (Option.some.inj hc)
    rw [if_neg this]
    simp [List.isEmpty_cons, hdig, hval]

/-- Evaluation of `gpg_conn` on a descriptor file of the shape
`<digits>\n<nonce bytes>`: the port is the decimal value of the digits
and the handshake buffer is the first 16 nonce bytes zero-padded to
width 16. -/
theorem gpg_conn_split (digits nonce : List Nat) (hne : digits ≠ [])
    (hdig : digits.all isDigit = true) (hval : digitsVal digits ≤ 65535) :
    gpg_conn (digits ++ 10 :: nonce) =
      Except.ok ⟨digitsVal digits,
        nonce.take 16 ++ List.replicate (16 - min 16 nonce.length) 0⟩ := by
  have hd10 : ∀ b ∈ digits, b ≠ 10 := fun b hb =>
    isDigit_ne_newline (List.all_eq_true.mp hdig b hb)
  unfold gpg_conn
  rw [read_line_append digits nonce hd10]
  simp only
  rw [if_neg (by omega)]
  rw [trimBytes_digits_newline digits hne
    (fun b hb => List.all_eq_true.mp hdig b hb)]
  rw [parseU16_digits digits hne hdig hval]

theorem stdin_to_pipe_append (ei cw : Bool) (chunks : List (List Nat))
    (h : ∀ c ∈ chunks, c ≠ []) (tl : List (List Nat)) :
    stdin_to_pipe ei cw (chunks ++ tl) =
      chunks.map PipeOp.write ++ stdin_to_pipe ei cw tl := by
  induction chunks with
  | nil => rfl
  | cons c cs ih =>
    have hc : c ≠ [] := h c (List.mem_cons_self c cs)
    have hlen : ¬ c.length = 0 := by
      simpa [List.length_eq_zero] using hc
    simp only [List.cons_append, stdin_to_pipe, if_neg hlen, List.map_cons,
      List.append_eq]
    rw [ih (fun x hx => h x (List.mem_cons_of_mem c hx))]

theorem tokio_copy_append (chunks : List (List Nat))
    (h : ∀ c ∈ chunks, c ≠ []) (tl : List (List Nat)) :
    tokio_copy (chunks ++ tl) = chunks.map PipeOp.write ++ tokio_copy tl := by
  induction chunks with
  | nil => rfl
  | cons c cs ih =>
    have hc : c ≠ [] := h c (List.mem_cons_self c cs)
    have hlen : ¬ c.length = 0 := by
      simpa [List.length_eq_zero] using hc
    simp only [List.cons_append, tokio_copy, if_neg hlen, List.map_cons,
      List.append_eq]
    rw [ih (fun x hx => h x (List.mem_cons_of_mem c hx))]

theorem writtenBytes_append (l₁ l₂ : List PipeOp) :
    writtenBytes (l₁ ++ l₂) = writtenBytes l₁ ++ writtenBytes l₂ := by
  induction l₁ with
  | nil => rfl
  | cons op rest ih => cases op <;> simp [writtenBytes, ih]

theorem writtenBytes_map_write (chunks : List (List Nat)) :
    writtenBytes (chunks.map PipeOp.write) = chunks.flatten := by
  induction chunks with
  | nil => rfl
  | cons c cs ih => simp [writtenBytes, ih]

theorem writtenBytes_eof_ops (ei cw : Bool) :
    writtenBytes (stdin_to_pipe ei cw [[]]) = [] := by
  cases ei <;> cases cw <;> rfl

/-! ## Claim theorems -/

/-- C1: the spec demands that GPG-mode resolution fail with the
`InvalidNonce` protocol-integrity error whenever the nonce byte count is
not exactly 16.  In the code the guard `n > 16` sits after a `read` into
a 16-byte buffer, which can never deliver more than 16 bytes, so the
guard is unreachable: for every descriptor file the result is either a
`ParseInt` error or success — never `InvalidNonce`.  In particular the
concrete file `"1\n"` followed by the 17 nonce bytes 1..17 resolves
successfully with the nonce silently truncated to its first 16 bytes. -/
theorem invalidNonce_unreachable :
    (∀ file : List Nat, gpg_conn file = Except.error RError.parseInt ∨
      ∃ r : GpgResult, gpg_conn file = Except.ok r) ∧
    gpg_conn ([49, 10] ++ (List.range 17).map (fun i => i + 1)) =
      Except.ok ⟨1, (List.range 16).map (fun i => i + 1)⟩ := by
  constructor
  · intro file
    unfold gpg_conn
    rw [if_neg (by omega)]
    cases parseU16 (trimBytes (read_line file).1) with
    | none => exact Or.inl rfl
    | some port => exact Or.inr ⟨_, rfl⟩
  · rfl

/-- C2: byte-stream fidelity in the input-to-transport direction, for
arbitrary chunk boundaries: whatever chunks the underlying stdin reads
deliver (each non-empty, then EOF), the bytes arriving at the
transport's write side are exactly their concatenation — in pipe mode
(`stdin_to_pipe`, for every flag combination) and in GPG mode
(`tokio_copy`). -/
theorem stdin_transport_fidelity (ei cw : Bool) (chunks : List (List Nat))
    (h : ∀ c ∈ chunks, c ≠ []) :
    writtenBytes (stdin_to_pipe ei cw (chunks ++ [[]])) = chunks.flatten ∧
    writtenBytes (tokio_copy (chunks ++ [[]])) = chunks.flatten := by
  constructor
  · rw [stdin_to_pipe_append ei cw chunks h, writtenBytes_append,
      writtenBytes_map_write, writtenBytes_eof_ops, List.append_nil]
  · rw [tokio_copy_append chunks h, writtenBytes_append,
      writtenBytes_map_write]
    simp [tokio_copy, writtenBytes]

/-- Witness for C2 at the concrete chunk script `[1,2]`, `[3]`, EOF. -/
theorem stdin_transport_fidelity_witness :
    writtenBytes (stdin_to_pipe false true ([[1, 2], [3]] ++ [[]])) =
      [[1, 2], [3]].flatten ∧
    writtenBytes (tokio_copy ([[1, 2], [3]] ++ [[]])) =
      [[1, 2], [3]].flatten :=
  stdin_transport_fidelity false true [[1, 2], [3]] (by decide)

/-- C3: the stdin-EOF policy matrix of the pipe-mode input direction.
After relaying any non-empty chunks, on the 0-byte stdin read the
operations performed on the transport are exactly: none if
`close_on_stdin_eof` (whatever `close_write` is); the zero-byte message
then the shutdown if `close_write` alone; the shutdown alone
otherwise. -/
theorem stdin_eof_policy (ei cw : Bool) (chunks : List (List Nat))
    (h : ∀ c ∈ chunks, c ≠ []) :
    stdin_to_pipe ei cw (chunks ++ [[]]) =
      chunks.map PipeOp.write ++
        (if ei then []
         else if cw then [PipeOp.writeZeroMsg, PipeOp.shutdown]
         else [PipeOp.shutdown]) := by
  rw [stdin_to_pipe_append ei cw chunks h]
  cases ei <;> cases cw <;> rfl

/-- Witness for C3 at the concrete script `[7]`, EOF with
`close_on_stdin_eof = false`, `close_write = true`. -/
theorem stdin_eof_policy_witness :
    stdin_to_pipe false true ([[7]] ++ [[]]) =
      [[7]].map PipeOp.write ++
        (if false then []
         else if true then [PipeOp.writeZeroMsg, PipeOp.shutdown]
         else [PipeOp.shutdown]) :=
  stdin_eof_policy false true [[7]] (by decide)

/-- C4: transport-to-stdout disconnect detection.  On a 0-byte
transport read the direction returns success immediately when
`close_on_eof` is set and otherwise enters the probe loop; the probe
loop sleeps 50 ms after each of `k` successful probes, terminates as
success on a broken-pipe probe failure, and returns any other probe
error as fatal. -/
theorem pipe_eof_probe (ce : Bool) (rest : List ReadOutcome)
    (probes tl : List ProbeOutcome) (k : Nat) (c : Option Nat)
    (hc : c ≠ some ERROR_BROKEN_PIPE) :
    (pipe_to_stdout ce (ReadOutcome.ok [] :: rest) probes =
        if ce then ([], DirResult.success) else probe_loop probes) ∧
    probe_loop (List.replicate k ProbeOutcome.ok ++
        ProbeOutcome.err (some ERROR_BROKEN_PIPE) :: tl) =
      (List.replicate k OutOp.sleep50, DirResult.success) ∧
    probe_loop (List.replicate k ProbeOutcome.ok ++ ProbeOutcome.err c :: tl) =
      (List.replicate k OutOp.sleep50, DirResult.fatal c) := by
  refine ⟨?_, ?_, ?_⟩
  · simp [pipe_to_stdout]
  · induction k with
    | zero => simp [probe_loop]
    | succ m ih => simp [List.replicate_succ, probe_loop, ih]
  · induction k with
    | zero => simp [probe_loop, hc]
    | succ m ih => simp [List.replicate_succ, probe_loop, ih]

/-- Witness for C4: one successful probe then the terminal outcomes, at
`close_on_eof = false` and the non-broken-pipe error code 5. -/
theorem pipe_eof_probe_witness :
    (pipe_to_stdout false (ReadOutcome.ok [] :: []) [ProbeOutcome.ok] =
        if false then ([], DirResult.success)
        else probe_loop [ProbeOutcome.ok]) ∧
    probe_loop (List.replicate 1 ProbeOutcome.ok ++
        ProbeOutcome.err (some ERROR_BROKEN_PIPE) :: []) =
      (List.replicate 1 OutOp.sleep50, DirResult.success) ∧
    probe_loop (List.replicate 1 ProbeOutcome.ok ++
        ProbeOutcome.err (some 5) :: []) =
      (List.replicate 1 OutOp.sleep50, DirResult.fatal (some 5)) :=
  pipe_eof_probe false [] [ProbeOutcome.ok] [] 1 (some 5) (by decide)

/-- C5: the two-tier pipe-open retry policy.  A busy open always costs
one attempt and one 50 ms sleep and continues (whatever `poll` and the
error's NotFound kind); a not-found open retries the same way when
`poll` is set and is immediately fatal when it is not; any other open
error is immediately fatal; a successful open connects after that one
attempt. -/
theorem connect_pipe_retry_policy (poll nf : Bool) (rest : List OpenOutcome)
    (c : Option Nat) (hc : c ≠ some ERROR_PIPE_BUSY) :
    (connect_pipe poll (OpenOutcome.err (some ERROR_PIPE_BUSY) nf :: rest) =
        (ConnOp.attempt :: ConnOp.sleep50 :: (connect_pipe poll rest).1,
         (connect_pipe poll rest).2)) ∧
    (connect_pipe true (OpenOutcome.err c true :: rest) =
        (ConnOp.attempt :: ConnOp.sleep50 :: (connect_pipe true rest).1,
         (connect_pipe true rest).2)) ∧
    (connect_pipe false (OpenOutcome.err c true :: rest) =
        ([ConnOp.attempt], ConnResult.fatal c true)) ∧
    (connect_pipe poll (OpenOutcome.err c false :: rest) =
        ([ConnOp.attempt], ConnResult.fatal c false)) ∧
    connect_pipe poll (OpenOutcome.ok :: rest) =
      ([ConnOp.attempt], ConnResult.connected) := by
  refine ⟨?_, ?_, ?_, ?_, ?_⟩ <;> simp [connect_pipe, hc]

/-- Witness for C5 at `poll = true`, `nf = false`, empty continuation
and the non-busy error code 2 (file not found). -/
theorem connect_pipe_retry_policy_witness :
    (connect_pipe true (OpenOutcome.err (some ERROR_PIPE_BUSY) false :: []) =
        (ConnOp.attempt :: ConnOp.sleep50 :: (connect_pipe true []).1,
         (connect_pipe true []).2)) ∧
    (connect_pipe true (OpenOutcome.err (some 2) true :: []) =
        (ConnOp.attempt :: ConnOp.sleep50 :: (connect_pipe true []).1,
         (connect_pipe true []).2)) ∧
    (connect_pipe false (OpenOutcome.err (some 2) true :: []) =
        ([ConnOp.attempt], ConnResult.fatal (some 2) true)) ∧
    (connect_pipe true (OpenOutcome.err (some 2) false :: []) =
        ([ConnOp.attempt], ConnResult.fatal (some 2) false)) ∧
    connect_pipe true (OpenOutcome.ok :: []) =
      ([ConnOp.attempt], ConnResult.connected) :=
  connect_pipe_retry_policy true false [] (some 2) (by decide)

/-- C6: for every valid descriptor file — decimal digits whose value is
a port in [0,65535], a newline, then exactly 16 nonce bytes — GPG-mode
resolution yields exactly that port (the `localhost` connect target)
and the handshake buffer written first on the TCP connection is exactly
those 16 bytes. -/
theorem gpg_valid_descriptor (digits nonce : List Nat) (hne : digits ≠ [])
    (hdig : digits.all isDigit = true) (hval : digitsVal digits ≤ 65535)
    (hlen : nonce.length = 16) :
    gpg_conn (digits ++ 10 :: nonce) =
      Except.ok ⟨digitsVal digits, nonce⟩ := by
  rw [gpg_conn_split digits nonce hne hdig hval]
  rw [List.take_of_length_le (by omega), hlen]
  simp

/-- Witness for C6: descriptor `"625\n"` followed by the 16 nonce bytes
1..16. -/
theorem gpg_valid_descriptor_witness :
    gpg_conn ([54, 50, 53] ++ 10 ::
        [1, 2, 3, 4, 5, 6, 7, 8, 9, 10, 11, 12, 13, 14, 15, 16]) =
      Except.ok ⟨digitsVal [54, 50, 53],
        [1, 2, 3, 4, 5, 6, 7, 8, 9, 10, 11, 12, 13, 14, 15, 16]⟩ :=
  gpg_valid_descriptor [54, 50, 53]
    [1, 2, 3, 4, 5, 6, 7, 8, 9, 10, 11, 12, 13, 14, 15, 16]
    (by decide) (by decide) (by decide) (by decide)

/-- C7: a transport read failing with the broken-pipe or not-connected
error code makes the transport-to-stdout direction return success
immediately, never an error. -/
theorem benign_disconnect_success (ce : Bool) (rest : List ReadOutcome)
    (probes : List ProbeOutcome) (c : Option Nat)
    (h : c = some ERROR_BROKEN_PIPE ∨ c = some ERROR_PIPE_NOT_CONNECTED) :
    pipe_to_stdout ce (ReadOutcome.err c :: rest) probes =
      ([], DirResult.success) := by
  rcases h with h | h <;> subst h <;>
    simp [pipe_to_stdout, ERROR_BROKEN_PIPE, ERROR_PIPE_NOT_CONNECTED]

/-- Witness for C7 at the not-connected error code. -/
theorem benign_disconnect_success_witness :
    pipe_to_stdout true [ReadOutcome.err (some ERROR_PIPE_NOT_CONNECTED)] [] =
      ([], DirResult.success) :=
  benign_disconnect_success true [] [] (some ERROR_PIPE_NOT_CONNECTED)
    (Or.inr rfl)

/-- C8 counterexample: in GPG mode the input direction is tokio's
`copy`; on the concrete stdin script "hi" (bytes 104,105) then EOF, the
direction terminates having performed exactly one data write — the
complete operation trace contains no shutdown of the transport's write
half, contradicting the claim that both transport kinds half-close on
stdin EOF. -/
theorem gpg_copy_no_shutdown :
    tokio_copy [[104, 105], []] = [PipeOp.write [104, 105]] := rfl

/-- C8 amended: in pipe mode, on stdin EOF without `close_on_stdin_eof`
the write half is shut down before the direction terminates; in GPG
mode the copy performs data writes only (its trace is a map of
`PipeOp.write`), terminating on stdin EOF without shutting down the TCP
write half. -/
theorem shutdown_on_stdin_eof_amended (cw : Bool) (chunks : List (List Nat))
    (h : ∀ c ∈ chunks, c ≠ []) :
    PipeOp.shutdown ∈ stdin_to_pipe false cw (chunks ++ [[]]) ∧
    ∀ script : List (List Nat),
      ∃ ws : List (List Nat), tokio_copy script = ws.map PipeOp.write := by
  constructor
  · rw [stdin_to_pipe_append false cw chunks h]
    refine List.mem_append.mpr (Or.inr ?_)
    cases cw <;> simp [stdin_to_pipe]
  · intro script
    induction script with
    | nil => exact ⟨[], rfl⟩
    | cons c cs ih =>
      by_cases hc : c.length = 0
      · exact ⟨[], by simp [tokio_copy, hc]⟩
      · obtain ⟨ws, hws⟩ := ih
        exact ⟨c :: ws, by simp [tokio_copy, hc, hws]⟩

/-- Witness for the amended C8: the pipe-mode trace on script `[1]`,
EOF contains the shutdown, and the GPG-mode trace on `[2]`, EOF is a
pure write trace. -/
theorem shutdown_on_stdin_eof_amended_witness :
    PipeOp.shutdown ∈ stdin_to_pipe false false ([[1]] ++ [[]]) ∧
    ∃ ws : List (List Nat), tokio_copy [[2], []] = ws.map PipeOp.write := by
  have h := shutdown_on_stdin_eof_amended false [[1]] (by decide)
  exact ⟨h.1, h.2 [[2], []]⟩

/-- C9: a descriptor whose nonce segment holds fewer than 16 bytes is
not rejected: resolution succeeds and the handshake buffer is the short
nonce zero-padded to 16 bytes. -/
theorem gpg_short_nonce_zero_pad (digits nonce : List Nat) (hne : digits ≠ [])
    (hdig : digits.all isDigit = true) (hval : digitsVal digits ≤ 65535)
    (hlen : nonce.length < 16) :
    gpg_conn (digits ++ 10 :: nonce) =
      Except.ok ⟨digitsVal digits,
        nonce ++ List.replicate (16 - nonce.length) 0⟩ := by
  rw [gpg_conn_split digits nonce hne hdig hval]
  rw [List.take_of_length_le (by omega),
    Nat.min_eq_right (Nat.le_of_lt hlen)]

/-- Witness for C9: descriptor `"7\n"` followed by the 3 nonce bytes
9,9,9 — resolution succeeds with 13 zero bytes of padding. -/
theorem gpg_short_nonce_zero_pad_witness :
    gpg_conn ([55] ++ 10 :: [9, 9, 9]) =
      Except.ok ⟨digitsVal [55],
        [9, 9, 9] ++ List.replicate (16 - [9, 9, 9].length) 0⟩ :=
  gpg_short_nonce_zero_pad [55] [9, 9, 9]
    (by decide) (by decide) (by decide) (by decide)

/-- C10: the benign-disconnect error classes differ between the two
read paths: the not-connected code is fatal inside the probe loop
(only broken-pipe ends it as success) while the same code on a normal
transport read ends the direction as success. -/
theorem probe_read_error_asymmetry (ce : Bool) (rest : List ReadOutcome)
    (probes tl : List ProbeOutcome) :
    probe_loop (ProbeOutcome.err (some ERROR_PIPE_NOT_CONNECTED) :: tl) =
      ([], DirResult.fatal (some ERROR_PIPE_NOT_CONNECTED)) ∧
    probe_loop (ProbeOutcome.err (some ERROR_BROKEN_PIPE) :: tl) =
      ([], DirResult.success) ∧
    pipe_to_stdout ce
        (ReadOutcome.err (some ERROR_PIPE_NOT_CONNECTED) :: rest) probes =
      ([], DirResult.success) := by
  refine ⟨?_, ?_, ?_⟩ <;>
    simp [probe_loop, pipe_to_stdout, ERROR_BROKEN_PIPE,
      ERROR_PIPE_NOT_CONNECTED]

end WslBridge
